import Mathlib

/-!
Verification of the mblog backend core (Rust sources under src/backend-rs/src).

The relational store is modelled shallowly: each table is a Lean list of row
structures mirroring the sea-orm entity structs, SQL statements become pure
list transformations, and a transactional route handler becomes a function
from the pre-state to an Except AppError post-state (an error result models a
rolled-back transaction, so no state is returned with it).

Strings are modelled with Lean String at the interfaces, but every string
operation (trim, split, replace, LIKE patterns) is implemented here over
List Char so that concrete instances reduce inside the kernel.  Rust
str::len counts bytes while List.length counts characters; the two agree on
the ASCII data handled by the modelled routes.
-/

namespace MBlog

/-- Characters of a string; all string algorithms below work on char lists. -/
abbrev Str := List Char

/-- Rust char::is_whitespace restricted to the ASCII whitespace the routes
handle; Lean Char.isWhitespace covers the same set. -/
def isWs (c : Char) : Bool := c.isWhitespace

/-- Drop whitespace from both ends, as Rust str::trim does. -/
def trimChars (l : Str) : Str :=
  ((l.dropWhile isWs).reverse.dropWhile isWs).reverse

/-- Split on a character predicate, keeping empty pieces, as Rust str::split
does (a split of the empty string yields one empty piece). -/
def splitChars (p : Char → Bool) : Str → List Str
  | [] => [[]]
  | c :: rest =>
    let r := splitChars p rest
    if p c then [] :: r
    else
      match r with
      | [] => [[c]]
      | w :: ws => (c :: w) :: ws

/-- Whether pat occurs inside s, the semantics of a SQL LIKE pattern that is
surrounded by percent wildcards on both sides. -/
def containsSub (s pat : Str) : Bool := decide (pat <:+: s)

/-- Whether s ends with pat, the semantics of a SQL LIKE pattern that starts
with a percent wildcard and has none at the end. -/
def endsWithSub (s pat : Str) : Bool := pat.reverse.isPrefixOf s.reverse

/-- Replace the first occurrence of pat in s by rep, the semantics of Rust
str::replacen with count 1 as used by the tag rename route. -/
def replaceFirstL (pat rep : Str) : Str → Str
  | [] => []
  | c :: rest =>
    if pat.isPrefixOf (c :: rest) then rep ++ (c :: rest).drop pat.length
    else c :: replaceFirstL pat rep rest

/-- Replace every occurrence of pat in s by rep, the semantics of Rust
str::replace.  The fuel argument (instantiated with the length of the
input) only serves structural termination; one unit is spent per character
position, which is enough because each step consumes at least one char of
the remaining input when pat is nonempty, as it is at every call site. -/
def replaceAllFuel (pat rep : Str) : Nat → Str → Str
  | 0, s => s
  | _ + 1, [] => []
  | fuel + 1, c :: rest =>
    if pat.isPrefixOf (c :: rest) then
      rep ++ replaceAllFuel pat rep fuel ((c :: rest).drop pat.length)
    else c :: replaceAllFuel pat rep fuel rest

/-- Rust str::replace over char lists. -/
def replaceAllL (s pat rep : Str) : Str := replaceAllFuel pat rep s.length s

/-- Decimal digits of a natural number; fuel-driven for kernel reduction. -/
def natToStrAux : Nat → Nat → Str
  | 0, _ => []
  | fuel + 1, n =>
    if n < 10 then [Nat.digitChar n]
    else natToStrAux fuel (n / 10) ++ [Nat.digitChar (n % 10)]

/-- Decimal rendering of a natural number. -/
def natToStr (n : Nat) : Str := natToStrAux (n + 1) n

/-- Decimal rendering of an integer, as Rust i32::to_string produces. -/
def intToStr (i : Int) : Str :=
  if i < 0 then '-' :: natToStr i.natAbs else natToStr i.natAbs

/-- Value of a decimal digit string, or none if empty or not all digits. -/
def digitsToNat : Str → Option Nat
  | [] => none
  | l =>
    if l.all Char.isDigit then
      some (l.foldl (fun acc c => acc * 10 + (c.toNat - '0'.toNat)) 0)
    else none

/-- Rust str::parse for a signed integer: an optional sign followed by a
nonempty digit run.  The i32 range check of the source is not modelled; the
routes only feed row identifiers that fit easily. -/
def parseIntL : Str → Option Int
  | '-' :: rest => (digitsToNat rest).map (fun n => -(n : Int))
  | '+' :: rest => (digitsToNat rest).map (fun n => (n : Int))
  | s => (digitsToNat s).map (fun n => (n : Int))

/-- LIKE containment over a nullable column: SQL three-valued logic filters
out NULL rows. -/
def optContains (col : Option String) (pat : String) : Bool :=
  match col with
  | some s => containsSub s.toList pat.toList
  | none => false

/-- LIKE suffix match over a nullable column. -/
def optEndsWith (col : Option String) (pat : String) : Bool :=
  match col with
  | some s => endsWithSub s.toList pat.toList
  | none => false

/-! ## Data model: one structure per sea-orm entity (src/backend-rs/src/entity).
Timestamps are modelled as epoch milliseconds. -/

/-- Row of t_user (entity/user.rs). -/
structure UserRow where
  id : Int
  username : String
  password_hash : String
  email : Option String
  display_name : Option String
  bio : Option String
  created : Option Int
  updated : Option Int
  role : Option String
  avatar_url : Option String
  last_clicked_mentioned : Option Int
  default_visibility : Option String
  default_enable_comment : Option String
deriving DecidableEq, Repr

/-- Row of t_memo (entity/memo.rs). -/
structure MemoRow where
  id : Int
  user_id : Int
  content : Option String
  tags : Option String
  visibility : Option String
  status : Option String
  created : Option Int
  updated : Option Int
  priority : Option Int
  comment_count : Option Int
  like_count : Option Int
  enable_comment : Option Int
  view_count : Option Int
  source : Option String
deriving DecidableEq, Repr

/-- Row of t_tag (entity/tag.rs). -/
structure TagRow where
  id : Int
  name : String
  user_id : Int
  created : Option Int
  updated : Option Int
  memo_count : Option Int
deriving DecidableEq, Repr

/-- Row of t_comment (entity/comment.rs). -/
structure CommentRow where
  id : Int
  memo_id : Int
  content : String
  user_id : Int
  user_name : String
  mentioned : Option String
  created : Option Int
  updated : Option Int
  mentioned_user_id : Option String
  email : Option String
  link : Option String
  approved : Option Int
deriving DecidableEq, Repr

/-- Row of t_user_memo_relation (entity/user_memo_relation.rs). -/
structure UserMemoRelationRow where
  id : Int
  memo_id : Int
  user_id : Int
  fav_type : String
  created : Option Int
  updated : Option Int
deriving DecidableEq, Repr

/-- Row of t_dev_token (entity/dev_token.rs). -/
structure DevTokenRow where
  id : Int
  name : String
  token : String
  user_id : Int
deriving DecidableEq, Repr

/-! ## Errors (src/backend-rs/src/error.rs): one variant Biz with a code and
a message; the named constructors mirror the impl block. -/

/-- AppError::Biz of error.rs. -/
structure AppError where
  code : Int
  msg : String
deriving DecidableEq, Repr

/-- AppError::param_error. -/
def AppError.param_error (m : String) : AppError := ⟨1, m⟩

/-- AppError::fail. -/
def AppError.fail (m : String) : AppError := ⟨2, m⟩

/-- AppError::need_login. -/
def AppError.need_login : AppError := ⟨3, "please login first"⟩

/-- AppError::api_token_invalid. -/
def AppError.api_token_invalid : AppError := ⟨3, "api token已失效"⟩

/-- AppError::system_exception. -/
def AppError.system_exception : AppError := ⟨99, "system_exception"⟩

/-! ## Identity resolver (src/backend-rs/src/auth.rs).

The JWT decode step (decode_jwt) performs HS256 signature verification with
validate_exp disabled; cryptography is outside a shallow embedding, so the
decode outcome is an input of the model: none stands for a token whose
signature does not verify, some c for a verified token whose claim set is c.
A claim value is an integer, a string, or something else (as_i64 and as_str
both return none on the latter). -/

/-- A JSON claim value as inspected by extract_user_id / extract_device. -/
inductive JsonVal where
  | int (i : Int)
  | str (s : String)
  | other
deriving DecidableEq, Repr

/-- serde_json Value::as_i64. -/
def JsonVal.asI64 : JsonVal → Option Int
  | .int i => some i
  | _ => none

/-- serde_json Value::as_str. -/
def JsonVal.asStr : JsonVal → Option String
  | .str s => some s
  | _ => none

/-- The decoded claim object: a JSON map, queried by key. -/
abbrev Claims := List (String × JsonVal)

/-- serde_json Value::get on an object. -/
def claimGet (c : Claims) (k : String) : Option JsonVal :=
  (c.find? (fun p => p.1 == k)).map (·.2)

/-- Claim-name priority order of extract_user_id (auth.rs). -/
def userIdKeys : List String := ["loginId", "userId", "id", "sub", "login_id"]

/-- Claim-name priority order of extract_device (auth.rs). -/
def deviceKeys : List String := ["device", "loginType", "login_type", "deviceType"]

/-- extract_user_id of auth.rs: first key present whose value is an integer
or a string that parses as one; a present key with neither form falls
through to the next key, exactly as the source loop does. -/
def extract_user_id (c : Claims) : Option Int :=
  userIdKeys.findSome? (fun k =>
    match claimGet c k with
    | some v =>
      match v.asI64 with
      | some i => some i
      | none => v.asStr.bind (fun s => parseIntL s.toList)
    | none => none)

/-- extract_device of auth.rs: first key present with a string value. -/
def extract_device (c : Claims) : Option String :=
  deviceKeys.findSome? (fun k => (claimGet c k).bind JsonVal.asStr)

/-- The store as the resolver sees it.  usersFail / devFail model a
persistence failure of the respective query (the map_err arms that produce
AppError::system_exception in the source). -/
structure AuthDb where
  users : List UserRow
  devTokens : List DevTokenRow
  usersFail : Bool
  devFail : Bool

/-- The resolved principal (struct AuthUser of auth.rs). -/
structure AuthUser where
  user_id : Int
  role : Option String
  device : String
deriving DecidableEq, Repr

/-- authenticate_token of auth.rs over a decoded credential.  The role comes
from the user row when one exists; an API-classed device must additionally
match a stored dev token row by token string and user id. -/
def authenticate_token (db : AuthDb) (token : String) (decoded : Option Claims) :
    Except AppError AuthUser :=
  match decoded with
  | none => .error AppError.need_login
  | some claims =>
    match extract_user_id claims with
    | none => .error AppError.need_login
    | some uid =>
      if db.usersFail then .error AppError.system_exception
      else
        let role := (db.users.find? (fun u => u.id == uid)).bind (·.role)
        let device := (extract_device claims).getD "WEB"
        if device == "API" then
          if db.devFail then .error AppError.system_exception
          else if ((db.devTokens.find?
              (fun d => d.token == token && d.user_id == uid)).isSome) then
            .ok ⟨uid, role, device⟩
          else .error AppError.api_token_invalid
        else .ok ⟨uid, role, device⟩

/-- OptionalAuthUser::from_request (auth.rs): when a credential is present
the shared resolver runs and its Result is collapsed with .ok(); when it is
absent the principal is simply none.  The argument pairs the raw token
string with its decode outcome. -/
def optional_authenticate (db : AuthDb)
    (cred : Option (String × Option Claims)) : Except AppError (Option AuthUser) :=
  match cred with
  | some (tok, dec) => .ok (authenticate_token db tok dec).toOption
  | none => .ok none

/-! ## Tag counter engine (src/backend-rs/src/routes/memo.rs, helpers
parse_tags .. decrement_tag_count). -/

/-- Predicate of the SQL key user_id = ? and name = ? shared by the two
counter updates. -/
def tagMatches (uid : Int) (name : String) (t : TagRow) : Bool :=
  t.user_id == uid && t.name == name

/-- SET clause of increment_tag_count: memo_count = memo_count + 1; SQL
arithmetic on a NULL count keeps it NULL. -/
def bumpCount (t : TagRow) : TagRow := { t with memo_count := t.memo_count.map (· + 1) }

/-- SET clause of decrement_tag_count: memo_count = memo_count - 1. -/
def dropCount (t : TagRow) : TagRow := { t with memo_count := t.memo_count.map (· - 1) }

/-- Guard memo_count >= 1 of decrement_tag_count, the floor clamp; a NULL
count fails the comparison under three-valued logic. -/
def decGuard (t : TagRow) : Bool :=
  match t.memo_count with | some c => decide (1 ≤ c) | none => false

/-- increment_tag_count: update t_tag set memo_count = memo_count + 1 where
user_id = ? and name = ?. -/
def increment_tag_count (tags : List TagRow) (uid : Int) (name : String) :
    List TagRow :=
  tags.map (fun t => if tagMatches uid name t then bumpCount t else t)

/-- decrement_tag_count: same key with the extra clamp guard. -/
def decrement_tag_count (tags : List TagRow) (uid : Int) (name : String) :
    List TagRow :=
  tags.map (fun t => if tagMatches uid name t && decGuard t then dropCount t else t)

/-- The caller's rows for one tag name: the result set of a query keyed by
user_id = ? and name = ?, the unit the counter invariants are stated on. -/
def tagRowsFor (tags : List TagRow) (uid : Int) (name : String) : List TagRow :=
  tags.filter (tagMatches uid name)

/-- sync_tags_on_save: look up the caller's existing rows among the parsed
names, insert a fresh count-1 row for every name with no existing row, then
increment once per found existing row.  The autoincrement id of an inserted
row is abstracted as 0; now is the transaction timestamp. -/
def sync_tags_on_save (tags : List TagRow) (uid : Int) (names : List String)
    (now : Int) : List TagRow :=
  if names.isEmpty then tags
  else
    let existing := tags.filter (fun t => t.user_id == uid && names.contains t.name)
    let newNames := names.filter (fun n => existing.all (fun t => !(t.name == n)))
    let afterInsert := tags ++ newNames.map (fun n =>
      { id := 0, name := n, user_id := uid, created := some now, updated := some now,
        memo_count := some 1 })
    existing.foldl (fun acc t => increment_tag_count acc uid t.name) afterInsert

/-- sync_tags_on_update: run the save-time sync for the new names, then
decrement once per old name, unconditionally. -/
def sync_tags_on_update (tags : List TagRow) (uid : Int)
    (newNames oldNames : List String) (now : Int) : List TagRow :=
  oldNames.foldl (fun acc n => decrement_tag_count acc uid n)
    (sync_tags_on_save tags uid newNames now)

/-! ## Memo text pipeline (routes/memo.rs: parse_tags, replace_first_line,
format_tags, split_tags) and the stored fields of the save route. -/

/-- parse_tags: hashtag tokens of the first line only; split on whitespace
or comma, keep nonempty tokens starting with a hash and longer than one. -/
def parse_tags (content : String) : List String :=
  let firstLine := (splitChars (fun c => c == '\n') content.toList).headD []
  if (trimChars firstLine).isEmpty then []
  else
    (((splitChars (fun c => isWs c || c == ',') firstLine).filter
        (fun s => !s.isEmpty)).filter
        (fun s => s.headD ' ' == '#' && decide (1 < s.length))).map List.asString

/-- Rust str::lines: pieces between newlines, with one trailing empty piece
dropped and a trailing carriage return stripped from each line. -/
def rustLines (s : Str) : List Str :=
  let pieces := splitChars (fun c => c == '\n') s
  let pieces := match pieces.getLast? with
    | some [] => pieces.dropLast
    | _ => pieces
  pieces.map (fun l => match l.getLast? with
    | some '\r' => l.dropLast
    | _ => l)

/-- replace_first_line: strip every parsed tag token from the first line
(with a following comma, a following space, then bare, each replacement
global), drop the line entirely when only whitespace is left, and rejoin. -/
def replace_first_line (content : String) (tags : List String) : String :=
  if (trimChars content.toList).isEmpty then ""
  else
    match rustLines content.toList with
    | [] => ""
    | first0 :: rest =>
      let first := tags.foldl (fun f tag =>
        let f := replaceAllL f (tag.toList ++ [',']) []
        let f := replaceAllL f (tag.toList ++ [' ']) []
        replaceAllL f tag.toList []) first0
      if (trimChars first).isEmpty then (List.intercalate ['\n'] rest).asString
      else (List.intercalate ['\n'] (first :: rest)).asString

/-- format_tags: every tag name followed by a comma, concatenated. -/
def format_tags (tags : List String) : String :=
  if tags.isEmpty then ""
  else (List.intercalate [','] (tags.map String.toList) ++ [',']).asString

/-- split_tags: the nonempty comma-separated pieces of a stored tag field. -/
def split_tags (tags : Option String) : List String :=
  ((splitChars (fun c => c == ',') (tags.getD "").toList).filter
    (fun s => !s.isEmpty)).map List.asString

/-- Content column the save route stores: the first line with its hashtag
tokens removed, then trimmed (routes/memo.rs line 150). -/
def memo_save_content (content : String) : String :=
  (trimChars (replace_first_line content (parse_tags content)).toList).asString

/-- Tags column the save route stores (routes/memo.rs line 147). -/
def memo_save_tags_field (content : String) : String :=
  format_tags (parse_tags content)

/-! ## Like relation (routes/memo.rs, relation handler, lines 581-661). -/

/-- Key of the t_user_memo_relation queries: memo_id = ? and user_id = ? and
fav_type = ?. -/
def relMatches (memoId uid : Int) (fav : String) (r : UserMemoRelationRow) : Bool :=
  r.memo_id == memoId && r.user_id == uid && r.fav_type == fav

/-- The two tables the relation handler touches. -/
structure LikeState where
  memos : List MemoRow
  relations : List UserMemoRelationRow
deriving DecidableEq, Repr

/-- The relation handler.  openLike is the OPEN_LIKE system setting; ADD
checks for an existing row before inserting and incrementing, REMOVE deletes
and decrements (clamped) only when a row was actually deleted; an unknown
operate_type falls through to success.  An error models the rolled-back
transaction, so it carries no state. -/
def memo_relation (openLike : Bool) (st : LikeState) (uid memoId : Int)
    (fav operateType : String) (now : Int) : Except AppError LikeState :=
  if !openLike then .error (AppError.fail "禁止点赞")
  else if operateType == "ADD" then
    let cnt := (st.relations.filter (relMatches memoId uid fav)).length
    if 0 < cnt then .error (AppError.fail "数据已存在")
    else
      .ok { relations := st.relations ++
              [{ id := 0, memo_id := memoId, user_id := uid, fav_type := fav,
                 created := some now, updated := none }],
            memos := st.memos.map (fun m =>
              if m.id == memoId then { m with like_count := m.like_count.map (· + 1) }
              else m) }
  else if operateType == "REMOVE" then
    let remaining := st.relations.filter (fun r => !(relMatches memoId uid fav r))
    if remaining.length < st.relations.length then
      .ok { relations := remaining,
            memos := st.memos.map (fun m =>
              if m.id == memoId &&
                  (match m.like_count with | some c => decide (1 ≤ c) | none => false) then
                { m with like_count := m.like_count.map (· - 1) }
              else m) }
    else .ok { st with relations := remaining }
  else .ok st

/-! ## Tag rename (routes/tag.rs, save handler, lines 100-157). -/

/-- The tables the tag save route touches. -/
structure TagStoreState where
  tags : List TagRow
  memos : List MemoRow
deriving DecidableEq, Repr

/-- One iteration of the tag save loop: look the tag up by id, rename the
row, then select the memos whose tag field matches the LIKE pattern built as
percent + old name + comma (no trailing percent wildcard: only tag strings
that END with the old name followed by a comma match), and for each rewrite
the first occurrence of the old token and bump the updated timestamp. -/
def tag_save_item (st : TagStoreState) (itemId : Int) (itemName : String)
    (now : Int) : Except AppError TagStoreState :=
  match st.tags.find? (fun t => t.id == itemId) with
  | none => .error (AppError.fail "tag不存在")
  | some old =>
    let tags1 := st.tags.map (fun t =>
      if t.id == itemId then { t with name := itemName } else t)
    let matched := st.memos.filter (fun m => optEndsWith m.tags (old.name ++ ","))
    let memos1 := matched.foldl
      (fun acc row =>
        let newTags := (replaceFirstL (old.name ++ ",").toList (itemName ++ ",").toList
          (row.tags.getD "").toList).asString
        acc.map (fun m =>
          if m.id == row.id then { m with tags := some newTags, updated := some now }
          else m))
      st.memos
    .ok { tags := tags1, memos := memos1 }

/-- The whole tag save transaction: the loop over the submitted items, the
first failure aborting (and rolling back) the transaction. -/
def tag_save (st : TagStoreState) (items : List (Int × String)) (now : Int) :
    Except AppError TagStoreState :=
  items.foldlM (fun s it => tag_save_item s it.1 it.2 now) st

/-! ## Comment routes (src/backend-rs/src/routes/comment.rs). -/

/-- The regex source text of parse_mentions (line 274).  It is built from the
Rust raw string with the characters ( @ . * ? ) backslash backslash s +, so
the regex engine sees a literal backslash followed by a greedy run of the
letter s after the lazy dot-run; the dot does not match a newline.  matchAt
tries to match at the start of the input and returns the first capture group
together with the remainder after the whole match. -/
def mentionLazyScan (cap : Str) : Str → Option (Str × Str)
  | [] => none
  | c :: t =>
    if c == '\\' && !(t.takeWhile (fun x => x == 's')).isEmpty then
      some (cap, t.dropWhile (fun x => x == 's'))
    else if c == '\n' then none
    else mentionLazyScan (cap ++ [c]) t

/-- Match of the mention regex anchored at the start of the input. -/
def mentionMatchAt : Str → Option (Str × Str)
  | '@' :: rest => mentionLazyScan ['@'] rest
  | _ => none

/-- captures_iter of the mention regex: leftmost matches, scanning resumes
after each whole match; the fuel (the input length) only drives structural
termination. -/
def mentionCapturesFuel : Nat → Str → List Str
  | 0, _ => []
  | _ + 1, [] => []
  | fuel + 1, c :: t =>
    match mentionMatchAt (c :: t) with
    | some (cap, rest) => cap :: mentionCapturesFuel fuel rest
    | none => mentionCapturesFuel fuel t

/-- All first capture groups of the mention regex over the content. -/
def mentionCaptures (s : Str) : List Str := mentionCapturesFuel s.length s

/-- parse_mentions (comment.rs lines 270-307): for each capture, trim it,
drop one leading at-sign, skip empties, look the remaining text up as a
display name and collect the user's display name and id; the names list
joins with commas or stays absent when empty, the ids list is hash id comma
per id, or an empty-but-present string when no mention matched. -/
def parse_mentions (users : List UserRow) (content : String) :
    Option String × Option String :=
  let collected := (mentionCaptures content.toList).foldl
    (fun (acc : List String × List String) cap =>
      let username := trimChars cap
      let username := if username.headD ' ' == '@' then username.tail else username
      if username.isEmpty then acc
      else
        match users.find? (fun u => u.display_name == some username.asString) with
        | some u => (acc.1 ++ [u.display_name.getD u.username],
                     acc.2 ++ [(intToStr u.id).asString])
        | none => acc)
    ([], [])
  let namesJoin := if collected.1.isEmpty then none
    else some (List.intercalate [','] (collected.1.map String.toList)).asString
  let idsJoin := if collected.2.isEmpty then some ""
    else some (('#' :: List.intercalate [',', '#'] (collected.2.map String.toList))
      ++ [',']).asString
  (namesJoin, idsJoin)

/-- The tables the comment remove route touches. -/
structure CommentStoreState where
  users : List UserRow
  memos : List MemoRow
  comments : List CommentRow
deriving DecidableEq, Repr

/-- remove handler of comment.rs (lines 154-187): load the caller's user
row, the comment and its memo; only an admin or the memo's owner may delete;
the delete removes the comment row by primary key and touches nothing else. -/
def comment_remove (st : CommentStoreState) (authUid : Int) (commentId : Int) :
    Except AppError CommentStoreState :=
  match st.users.find? (fun u => u.id == authUid) with
  | none => .error (AppError.fail "用户不存在")
  | some u =>
    match st.comments.find? (fun c => c.id == commentId) with
    | none => .error (AppError.fail "评论不存在")
    | some c =>
      match st.memos.find? (fun m => m.id == c.memo_id) with
      | none => .error (AppError.fail "memo不存在")
      | some mm =>
        if !(u.role == some "ADMIN") && !(mm.user_id == u.id) then
          .error (AppError.fail "只能删除自己发的memo的评论")
        else
          .ok { st with comments := st.comments.filter (fun x => !(x.id == commentId)) }

/-- single_approve handler of comment.rs (lines 244-255).  The route has no
credential extractor at all, so the model takes the request's (possibly
absent) principal and never reads it: update t_comment set approved = 1
where id = ? and user_id < 0. -/
def single_approve (cred : Option AuthUser) (comments : List CommentRow)
    (commentId : Int) : Except AppError (List CommentRow) :=
  .ok (comments.map (fun c =>
    if c.id == commentId && decide (c.user_id < 0) then { c with approved := some 1 }
    else c))

/-- memo_approve handler of comment.rs (lines 257-268): same update keyed by
memo_id instead of the comment id, equally credential-free. -/
def memo_approve (cred : Option AuthUser) (comments : List CommentRow)
    (memoId : Int) : Except AppError (List CommentRow) :=
  .ok (comments.map (fun c =>
    if c.memo_id == memoId && decide (c.user_id < 0) then { c with approved := some 1 }
    else c))

/-! ## Listing query builder (routes/memo.rs, list handler, lines 380-499).

The dynamic WHERE clause is modelled predicate by predicate in the order the
source pushes its SQL fragments; the optional cross joins against
t_user_memo_relation (alias tumr, when liked) and t_comment (alias tc, when
commented) are modelled by pairing each memo with an optional row of each
table, none standing for an absent join.  parse_date accepts RFC3339 text or
epoch milliseconds in the source; the calendar arithmetic of the RFC3339
branch is outside this embedding, so the model parses the integer form and
treats other text as unparsable, which only makes the date filter inactive
on more requests - the listing invariants proved below do not depend on
which requests activate it.  The outer enrichment query (author columns,
resource rows, liked flag) left-joins onto the page subquery and so never
adds memo rows; the page of memos is therefore modelled up to that subquery:
filter, order, offset and limit. -/

/-- The request body of the list route (struct ListMemoRequest). -/
structure ListMemoRequest where
  page : Option Int
  size : Option Int
  tag : Option String
  visibility : Option String
  user_id : Option Int
  begin_ : Option String
  end_ : Option String
  search : Option String
  liked : Option Bool
  commented : Option Bool
  mentioned : Option Bool
deriving DecidableEq, Repr

/-- An all-absent request, the base the witnesses build on. -/
def emptyListRequest : ListMemoRequest :=
  { page := none, size := none, tag := none, visibility := none, user_id := none,
    begin_ := none, end_ := none, search := none, liked := none, commented := none,
    mentioned := none }

/-- The tables the list route reads. -/
structure ListDb where
  memos : List MemoRow
  relations : List UserMemoRelationRow
  comments : List CommentRow
deriving DecidableEq, Repr

/-- parse_date restricted to the epoch-milliseconds branch (see the section
comment). -/
def parse_date (s : String) : Option Int := parseIntL s.toList

/-- Fragment pushed first: t.status = 'NORMAL'. -/
def statusCond (m : MemoRow) : Bool := m.status == some "NORMAL"

/-- Fragment for a nonempty search: t.content like percent-search-percent. -/
def searchCond (req : ListMemoRequest) (m : MemoRow) : Bool :=
  match req.search with
  | some s => if s == "" then true else optContains m.content s
  | none => true

/-- Fragment for a begin/end pair that both parse: t.created between. -/
def dateCond (req : ListMemoRequest) (m : MemoRow) : Bool :=
  match req.begin_, req.end_ with
  | some b, some e =>
    match parse_date b, parse_date e with
    | some pb, some pe =>
      (match m.created with
       | some t => decide (pb ≤ t) && decide (t ≤ pe)
       | none => false)
    | _, _ => true
  | _, _ => true

/-- Visibility disjunction of the logged-in branch: visibility in PUBLIC,
PROTECT or the viewer's own PRIVATE. -/
def visLoginCond (uid : Int) (m : MemoRow) : Bool :=
  (m.visibility == some "PUBLIC" || m.visibility == some "PROTECT") ||
    (m.visibility == some "PRIVATE" && m.user_id == uid)

/-- Fragment for a positive user_id filter. -/
def userIdCond (req : ListMemoRequest) (m : MemoRow) : Bool :=
  match req.user_id with
  | some u => if decide (0 < u) then m.user_id == u else true
  | none => true

/-- Fragments referencing the tumr join, pushed when liked is requested. -/
def likedCond (req : ListMemoRequest) (uid : Int) (m : MemoRow)
    (tumr : Option UserMemoRelationRow) : Bool :=
  if req.liked.getD false then
    match tumr with
    | some r => r.memo_id == m.id && r.user_id == uid && r.fav_type == "LIKE"
    | none => false
  else true

/-- Fragments referencing the tc join, pushed when commented is requested;
mentioned switches the second conjunct from the commenter id to a LIKE over
the mentioned-ids string. -/
def commentedCond (req : ListMemoRequest) (uid : Int) (m : MemoRow)
    (tc : Option CommentRow) : Bool :=
  if req.commented.getD false then
    match tc with
    | some c =>
      (c.memo_id == m.id) &&
        (if req.mentioned.getD false then
          optContains c.mentioned_user_id (("#" ++ (intToStr uid).asString ++ ","))
        else c.user_id == uid)
    | none => false
  else true

/-- Viewer-dependent block: logged-in viewers get the three-way visibility
disjunction plus the user, liked and commented filters; anonymous viewers
get visibility = PUBLIC plus the user filter. -/
def viewerCond (req : ListMemoRequest) (viewer : Option Int) (m : MemoRow)
    (tumr : Option UserMemoRelationRow) (tc : Option CommentRow) : Bool :=
  match viewer with
  | some uid =>
    visLoginCond uid m && userIdCond req m && likedCond req uid m tumr &&
      commentedCond req uid m tc
  | none => (m.visibility == some "PUBLIC") && userIdCond req m

/-- Fragment for a nonblank tag filter: t.tags like percent-tag-comma-percent. -/
def tagCond (req : ListMemoRequest) (m : MemoRow) : Bool :=
  match req.tag with
  | some v => if (trimChars v.toList).isEmpty then true else optContains m.tags (v ++ ",")
  | none => true

/-- Fragment for a nonblank visibility filter: t.visibility = ?. -/
def visCond (req : ListMemoRequest) (m : MemoRow) : Bool :=
  match req.visibility with
  | some v => if (trimChars v.toList).isEmpty then true else m.visibility == some v
  | none => true

/-- The whole WHERE conjunction, in push order. -/
def listWhere (req : ListMemoRequest) (viewer : Option Int) (m : MemoRow)
    (tumr : Option UserMemoRelationRow) (tc : Option CommentRow) : Bool :=
  statusCond m && searchCond req m && dateCond req m &&
    viewerCond req viewer m tumr tc && tagCond req m && visCond req m

/-- The FROM clause: memos crossed with the joined tables when present. -/
def joinRows (db : ListDb) (req : ListMemoRequest) (viewer : Option Int) :
    List (MemoRow × Option UserMemoRelationRow × Option CommentRow) :=
  let rels : List (Option UserMemoRelationRow) :=
    if viewer.isSome && req.liked.getD false then db.relations.map some else [none]
  let cs : List (Option CommentRow) :=
    if viewer.isSome && req.commented.getD false then db.comments.map some else [none]
  db.memos.flatMap (fun m => rels.flatMap (fun r => cs.map (fun c => (m, r, c))))

/-- Memos satisfying the assembled predicate (the rows of the subquery
before ordering and limits). -/
def innerRows (db : ListDb) (req : ListMemoRequest) (viewer : Option Int) :
    List MemoRow :=
  ((joinRows db req viewer).filter
    (fun x => listWhere req viewer x.1 x.2.1 x.2.2)).map (·.1)

/-- ORDER BY comparison: optionally priority desc first, then created desc;
NULLs are ranked as 0, an inessential choice since the schema defaults both
columns. -/
def listLe (usePriority : Bool) (a b : MemoRow) : Bool :=
  if usePriority then
    decide (b.priority.getD 0 < a.priority.getD 0) ||
      (b.priority.getD 0 == a.priority.getD 0 &&
        decide (b.created.getD 0 ≤ a.created.getD 0))
  else decide (b.created.getD 0 ≤ a.created.getD 0)

/-- Insertion step of the stable sort standing for ORDER BY. -/
def insertSorted (le : MemoRow → MemoRow → Bool) (x : MemoRow) :
    List MemoRow → List MemoRow
  | [] => [x]
  | y :: ys => if le x y then x :: y :: ys else y :: insertSorted le x ys

/-- Stable insertion sort standing for ORDER BY. -/
def sortByLe (le : MemoRow → MemoRow → Bool) : List MemoRow → List MemoRow
  | [] => []
  | x :: xs => insertSorted le x (sortByLe le xs)

/-- The page of memo rows the list handler returns: page and size clamped to
at least 1 (size defaulting to 20), offset = (page - 1) * size, priority
ordering active only when none of liked / commented / mentioned is set. -/
def listPageMemos (db : ListDb) (req : ListMemoRequest) (viewer : Option Int) :
    List MemoRow :=
  let page := max (req.page.getD 1) 1
  let size := max (req.size.getD 20) 1
  let offset := (page - 1) * size
  let usePriority := !(req.liked.getD false) && !(req.commented.getD false) &&
    !(req.mentioned.getD false)
  ((sortByLe (listLe usePriority) (innerRows db req viewer)).drop offset.toNat).take
    size.toNat

/-! ## Concrete rows and states used by the closed instances below. -/

/-- A memo row with every nullable column NULL and ids zero, to be
overridden field by field. -/
def baseMemo : MemoRow :=
  { id := 0, user_id := 0, content := none, tags := none, visibility := none,
    status := none, created := none, updated := none, priority := none,
    comment_count := none, like_count := none, enable_comment := none,
    view_count := none, source := none }

/-- A user row with empty credentials and NULL profile columns. -/
def baseUser : UserRow :=
  { id := 0, username := "", password_hash := "", email := none, display_name := none,
    bio := none, created := none, updated := none, role := none, avatar_url := none,
    last_clicked_mentioned := none, default_visibility := none,
    default_enable_comment := none }

/-- A comment row with sentinel defaults. -/
def baseComment : CommentRow :=
  { id := 0, memo_id := 0, content := "", user_id := 0, user_name := "",
    mentioned := none, created := none, updated := none, mentioned_user_id := none,
    email := none, link := none, approved := none }

/-- A tag row with NULL timestamps and count. -/
def baseTag : TagRow :=
  { id := 0, name := "", user_id := 0, created := none, updated := none,
    memo_count := none }

/-- One public NORMAL memo, the row the listing instance must return. -/
def c1memo : MemoRow :=
  { baseMemo with
    id := 1, user_id := 1, content := some "hi", tags := some "",
    visibility := some "PUBLIC", status := some "NORMAL", created := some 0,
    priority := some 0 }

/-- Store for the listing instance. -/
def c1db : ListDb := { memos := [c1memo], relations := [], comments := [] }

/-- Tag table before the double-counted update: one row for hash-a of user 7
with count 2 (user 7 owns two non-deleted memos tagged hash-a, the second of
which stored the tag token twice). -/
def c2row : TagRow := { baseTag with id := 1, name := "#a", user_id := 7, memo_count := some 2 }

/-- Tag table of the C2 instances. -/
def c2tags : List TagRow := [c2row]

/-- Claims of an API-classed token for user 5. -/
def c3claims : Claims := [("loginId", JsonVal.int 5), ("device", JsonVal.str "API")]

/-- Store with no issued dev token for anybody and a healthy user query. -/
def c3db : AuthDb := { users := [], devTokens := [], usersFail := false, devFail := false }

/-- Store whose user query fails, driving the resolver to a system
exception. -/
def c4db : AuthDb := { users := [], devTokens := [], usersFail := true, devFail := false }

/-- Claims of an ordinary web token for user 5. -/
def c4claims : Claims := [("loginId", JsonVal.int 5)]

/-- Like-relation state: one memo with zero likes and no relation rows. -/
def c5state : LikeState :=
  { memos := [{ baseMemo with id := 1, like_count := some 0 }], relations := [] }

/-- The state after the first ADD on c5state: the counter bumped to 1 and
the inserted relation row present. -/
def c5after : LikeState :=
  { memos := [{ baseMemo with id := 1, like_count := some 1 }],
    relations := [{ id := 0, memo_id := 1, user_id := 430, fav_type := "LIKE",
                    created := some 9, updated := none }] }

/-- Tag/memo store for the rename counterexample: the tag of user 7 named
hash-rust, and a memo whose tag string contains hash-rust-comma in the
middle rather than at the end. -/
def c6state : TagStoreState :=
  { tags := [{ baseTag with id := 1, name := "#rust", user_id := 7, memo_count := some 1 }],
    memos := [{ baseMemo with id := 5, user_id := 7, tags := some "#rust,#go," }] }

/-- Store for the amended rename instance: the same tag but a memo whose tag
string ends with the renamed token. -/
def c6stateEnd : TagStoreState :=
  { tags := [{ baseTag with id := 1, name := "#rust", user_id := 7, memo_count := some 1 }],
    memos := [{ baseMemo with id := 5, user_id := 7, tags := some "#go,#rust," }] }

/-- The tag row the rename instances start from. -/
def c6old : TagRow := { baseTag with id := 1, name := "#rust", user_id := 7, memo_count := some 1 }

/-- The state tag_save_item produces from c6stateEnd: tag renamed, the memo
token rewritten and its updated timestamp bumped. -/
def c6afterEnd : TagStoreState :=
  { tags := [{ baseTag with id := 1, name := "#r2", user_id := 7, memo_count := some 1 }],
    memos := [{ baseMemo with
                id := 5, user_id := 7, tags := some "#go,#r2,", updated := some 99 }] }

/-- One registered user displayed as alice. -/
def c7users : List UserRow :=
  [{ baseUser with id := 1, username := "alice0", display_name := some "alice" }]

/-- The admin caller of the removal instances. -/
def c9caller : UserRow := { baseUser with id := 1, username := "root", role := some "ADMIN" }

/-- A non-admin, non-owner caller. -/
def c9stranger : UserRow := { baseUser with id := 3, username := "carol" }

/-- The memo owner. -/
def c9owner : UserRow := { baseUser with id := 9, username := "owner" }

/-- The memo carrying the comment. -/
def c9memo : MemoRow := { baseMemo with id := 2, user_id := 9, comment_count := some 4 }

/-- The comment to delete. -/
def c9comment : CommentRow :=
  { baseComment with
    id := 5, memo_id := 2, user_id := -1, user_name := "anon", approved := some 1 }

/-- Comment store for the removal instances. -/
def c9state : CommentStoreState :=
  { users := [c9caller, c9stranger, c9owner], memos := [c9memo],
    comments := [c9comment] }

/-- The pending anonymous comment of the approval instances. -/
def c10anon : CommentRow :=
  { baseComment with
    id := 5, memo_id := 2, user_id := -1, user_name := "anon", approved := some 0 }

/-- The authenticated comment of the approval instances. -/
def c10auth : CommentRow :=
  { baseComment with
    id := 6, memo_id := 2, user_id := 4, user_name := "dave" }

/-- Comment table for the approval instances. -/
def c10comments : List CommentRow := [c10anon, c10auth]

/-! ## Helper lemmas on the sort and on the tag-count primitives. -/

/-- Membership is preserved by one insertion step of the ORDER BY sort. -/
theorem mem_insertSorted (le : MemoRow → MemoRow → Bool) (x a : MemoRow) :
    ∀ l : List MemoRow, a ∈ insertSorted le x l ↔ a = x ∨ a ∈ l := by
  intro l
  induction l with
  | nil => simp [insertSorted]
  | cons y ys ih =>
    by_cases h : le x y = true
    · simp [insertSorted, h]
    · simp only [insertSorted, h, if_neg, Bool.not_eq_true, List.mem_cons, ih]
      tauto

/-- The ORDER BY sort returns a permutation, so membership is unchanged. -/
theorem mem_sortByLe (le : MemoRow → MemoRow → Bool) (a : MemoRow) :
    ∀ l : List MemoRow, a ∈ sortByLe le l ↔ a ∈ l := by
  intro l
  induction l with
  | nil => simp [sortByLe]
  | cons x xs ih => simp [sortByLe, mem_insertSorted, ih]

/-- A per-row update that does not move a row across the filter predicate
commutes with the filter. -/
theorem filter_map_update (p : TagRow → Bool) (u : TagRow → TagRow)
    (hkeep : ∀ t, p (u t) = p t) :
    ∀ l : List TagRow, (l.map u).filter p = (l.filter p).map u := by
  intro l
  induction l with
  | nil => rfl
  | cons t rest ih =>
    by_cases h : p t = true
    · simp [List.filter_cons, hkeep, h, ih]
    · simp [List.filter_cons, hkeep, h, ih]

/-- bumpCount does not touch the key columns. -/
theorem tagMatches_bumpCount (uid : Int) (name : String) (t : TagRow) :
    tagMatches uid name (bumpCount t) = tagMatches uid name t := rfl

/-- dropCount does not touch the key columns. -/
theorem tagMatches_dropCount (uid : Int) (name : String) (t : TagRow) :
    tagMatches uid name (dropCount t) = tagMatches uid name t := rfl

/-- Effect of one increment on the rows of one key. -/
theorem tagRowsFor_inc (l : List TagRow) (uid : Int) (name name' : String) :
    tagRowsFor (increment_tag_count l uid name') uid name =
      (tagRowsFor l uid name).map
        (fun t => if tagMatches uid name' t then bumpCount t else t) := by
  unfold tagRowsFor increment_tag_count
  apply filter_map_update
  intro t
  by_cases h : tagMatches uid name' t = true <;> simp [h, tagMatches_bumpCount]

/-- An increment keyed by the same user and name bumps every row of that
key. -/
theorem tagRowsFor_inc_self (l : List TagRow) (uid : Int) (name : String) :
    tagRowsFor (increment_tag_count l uid name) uid name =
      (tagRowsFor l uid name).map bumpCount := by
  rw [tagRowsFor_inc]
  apply List.map_congr_left
  intro t ht
  have : tagMatches uid name t = true := (List.mem_filter.mp ht).2
  simp [this]

/-- An increment keyed by a different name leaves the rows of this key
unchanged. -/
theorem tagRowsFor_inc_other (l : List TagRow) (uid : Int) (name name' : String)
    (h : ¬ name' = name) :
    tagRowsFor (increment_tag_count l uid name') uid name = tagRowsFor l uid name := by
  rw [tagRowsFor_inc]
  have : ∀ t ∈ tagRowsFor l uid name,
      (if tagMatches uid name' t then bumpCount t else t) = t := by
    intro t ht
    have hm : tagMatches uid name t = true := (List.mem_filter.mp ht).2
    have hname : t.name = name := by
      have := (Bool.and_eq_true _ _).mp hm
      exact beq_iff_eq.mp this.2
    have hfalse : tagMatches uid name' t = false := by
      unfold tagMatches
      rw [hname]
      have h2 : (name == name') = false := by
        simp only [beq_eq_false_iff_ne, ne_eq]
        exact fun hh => h hh.symm
      simp [h2]
    simp [hfalse]
  rw [List.map_congr_left this, List.map_id']

/-- Effect of one decrement on the rows of one key. -/
theorem tagRowsFor_dec (l : List TagRow) (uid : Int) (name name' : String) :
    tagRowsFor (decrement_tag_count l uid name') uid name =
      (tagRowsFor l uid name).map
        (fun t => if tagMatches uid name' t && decGuard t then dropCount t else t) := by
  unfold tagRowsFor decrement_tag_count
  apply filter_map_update
  intro t
  by_cases h : (tagMatches uid name' t && decGuard t) = true <;>
    simp [h, tagMatches_dropCount]

/-- A decrement keyed by the same user and name applies the clamped
decrement to every row of that key. -/
theorem tagRowsFor_dec_self (l : List TagRow) (uid : Int) (name : String) :
    tagRowsFor (decrement_tag_count l uid name) uid name =
      (tagRowsFor l uid name).map (fun t => if decGuard t then dropCount t else t) := by
  rw [tagRowsFor_dec]
  apply List.map_congr_left
  intro t ht
  have : tagMatches uid name t = true := (List.mem_filter.mp ht).2
  simp [this]

/-- A decrement keyed by a different name leaves the rows of this key
unchanged. -/
theorem tagRowsFor_dec_other (l : List TagRow) (uid : Int) (name name' : String)
    (h : ¬ name' = name) :
    tagRowsFor (decrement_tag_count l uid name') uid name = tagRowsFor l uid name := by
  rw [tagRowsFor_dec]
  have : ∀ t ∈ tagRowsFor l uid name,
      (if tagMatches uid name' t && decGuard t then dropCount t else t) = t := by
    intro t ht
    have hm : tagMatches uid name t = true := (List.mem_filter.mp ht).2
    have hname : t.name = name := by
      have := (Bool.and_eq_true _ _).mp hm
      exact beq_iff_eq.mp this.2
    have hfalse : tagMatches uid name' t = false := by
      unfold tagMatches
      rw [hname]
      have h2 : (name == name') = false := by
        simp only [beq_eq_false_iff_ne, ne_eq]
        exact fun hh => h hh.symm
      simp [h2]
    simp [hfalse]
  rw [List.map_congr_left this, List.map_id']

/-- A run of increments keyed by rows none of which carries this name
leaves the rows of this key unchanged. -/
theorem tagRowsFor_fold_inc_zero (uid : Int) (name : String) :
    ∀ (rows : List TagRow) (acc : List TagRow),
      rows.countP (fun t => t.name == name) = 0 →
      tagRowsFor (rows.foldl (fun a t => increment_tag_count a uid t.name) acc)
        uid name = tagRowsFor acc uid name := by
  intro rows
  induction rows with
  | nil => intro acc _; rfl
  | cons t rest ih =>
    intro acc h
    rw [List.countP_cons] at h
    by_cases ht : (t.name == name) = true
    · simp [ht] at h
    · have hne : ¬ t.name = name := by simpa using ht
      simp only [List.foldl_cons]
      rw [ih _ (by simpa [ht] using h), tagRowsFor_inc_other _ _ _ _ hne]

/-- A run of increments keyed by rows exactly one of which carries this
name bumps the rows of this key exactly once. -/
theorem tagRowsFor_fold_inc_one (uid : Int) (name : String) :
    ∀ (rows : List TagRow) (acc : List TagRow),
      rows.countP (fun t => t.name == name) = 1 →
      tagRowsFor (rows.foldl (fun a t => increment_tag_count a uid t.name) acc)
        uid name = (tagRowsFor acc uid name).map bumpCount := by
  intro rows
  induction rows with
  | nil => intro acc h; simp at h
  | cons t rest ih =>
    intro acc h
    rw [List.countP_cons] at h
    by_cases ht : (t.name == name) = true
    · have hname : t.name = name := by simpa using ht
      have hrest : rest.countP (fun t => t.name == name) = 0 := by
        simpa [ht] using h
      simp only [List.foldl_cons]
      rw [tagRowsFor_fold_inc_zero _ _ _ _ hrest, hname, tagRowsFor_inc_self]
    · have hne : ¬ t.name = name := by simpa using ht
      simp only [List.foldl_cons]
      rw [ih _ (by simpa [ht] using h), tagRowsFor_inc_other _ _ _ _ hne]

/-- A run of decrements keyed by names among which this name is absent
leaves the rows of this key unchanged. -/
theorem tagRowsFor_fold_dec_zero (uid : Int) (name : String) :
    ∀ (names : List String) (acc : List TagRow),
      names.count name = 0 →
      tagRowsFor (names.foldl (fun a n => decrement_tag_count a uid n) acc)
        uid name = tagRowsFor acc uid name := by
  intro names
  induction names with
  | nil => intro acc _; rfl
  | cons n rest ih =>
    intro acc h
    rw [List.count_cons] at h
    by_cases hn : (n == name) = true
    · simp [hn] at h
    · have hne : ¬ n = name := by simpa using hn
      simp only [List.foldl_cons]
      rw [ih _ (by simpa [hn] using h), tagRowsFor_dec_other _ _ _ _ hne]

/-- A run of decrements keyed by names among which this name occurs exactly
once applies the clamped decrement to the rows of this key exactly once. -/
theorem tagRowsFor_fold_dec_one (uid : Int) (name : String) :
    ∀ (names : List String) (acc : List TagRow),
      names.count name = 1 →
      tagRowsFor (names.foldl (fun a n => decrement_tag_count a uid n) acc)
        uid name =
        (tagRowsFor acc uid name).map (fun t => if decGuard t then dropCount t else t) := by
  intro names
  induction names with
  | nil => intro acc h; simp at h
  | cons n rest ih =>
    intro acc h
    rw [List.count_cons] at h
    by_cases hn : (n == name) = true
    · have hname : n = name := by simpa using hn
      have hrest : rest.count name = 0 := by simpa [hn] using h
      simp only [List.foldl_cons]
      rw [tagRowsFor_fold_dec_zero _ _ _ _ hrest, hname, tagRowsFor_dec_self]
    · have hne : ¬ n = name := by simpa using hn
      simp only [List.foldl_cons]
      rw [ih _ (by simpa [hn] using h), tagRowsFor_dec_other _ _ _ _ hne]

/-! ## The claims. -/

/-- C8: creating a memo from the content hash-rust-space-hello-world for
user 7 stores the content hello-world (hashtag token stripped from the
first line, result trimmed) and the tag field hash-rust-comma; the tag sync
either inserts a fresh hash-rust row for user 7 with memo_count 1 or, when
a row already exists, increments it instead of inserting a duplicate. -/
theorem mbC8 :
    memo_save_content "#rust hello world" = "hello world"
    ∧ memo_save_tags_field "#rust hello world" = "#rust,"
    ∧ sync_tags_on_save [] 7 (parse_tags "#rust hello world") 0 =
        [{ baseTag with
           name := "#rust", user_id := 7, created := some 0, updated := some 0,
           memo_count := some 1 }]
    ∧ sync_tags_on_save
        [{ baseTag with id := 3, name := "#rust", user_id := 7, memo_count := some 0 }]
        7 (parse_tags "#rust hello world") 0 =
        [{ baseTag with id := 3, name := "#rust", user_id := 7, memo_count := some 1 }] :=
  ⟨by decide, by decide, by decide, by decide⟩

/-- C3: an API-classed credential whose signature verifies and whose user id
resolves, but whose token string matches no stored dev token row for that
user, is rejected with the api-token-invalid failure, which is distinct
from the need-login failure. -/
theorem mbC3 (db : AuthDb) (token : String) (claims : Claims) (uid : Int)
    (hid : extract_user_id claims = some uid)
    (hdev : (extract_device claims).getD "WEB" = "API")
    (hups : db.usersFail = false)
    (hdevdb : db.devFail = false)
    (hmiss : db.devTokens.find? (fun d => d.token == token && d.user_id == uid) = none) :
    authenticate_token db token (some claims) = .error AppError.api_token_invalid
    ∧ AppError.api_token_invalid ≠ AppError.need_login := by
  constructor
  · simp [authenticate_token, hid, hdev, hups, hdevdb, hmiss]
  · decide

/-- Closed instance of mbC3: user 5 with an API device claim and an empty
dev-token table. -/
theorem mbC3_witness :
    authenticate_token c3db "tok" (some c3claims) = .error AppError.api_token_invalid
    ∧ AppError.api_token_invalid ≠ AppError.need_login :=
  mbC3 c3db "tok" c3claims 5 (by decide) (by decide) rfl rfl rfl

/-- C4 as stated fails: when the shared resolver hits a store failure and
returns the system exception, the optional resolution still collapses it to
an absent principal instead of propagating it. -/
theorem mbC4_cex :
    authenticate_token c4db "tok" (some c4claims) = .error AppError.system_exception
    ∧ optional_authenticate c4db (some ("tok", some c4claims)) = .ok none :=
  ⟨rfl, rfl⟩

/-- C4 amended: the optional resolution discards every failing outcome of
the shared resolver - need-login, invalid API token and system exception
alike - into an absent principal, and passes a resolved principal through. -/
theorem mbC4 (db : AuthDb) (tok : String) (dec : Option Claims) :
    (∀ e, authenticate_token db tok dec = .error e →
        optional_authenticate db (some (tok, dec)) = .ok none)
    ∧ (∀ a, authenticate_token db tok dec = .ok a →
        optional_authenticate db (some (tok, dec)) = .ok (some a)) := by
  constructor
  · intro e h
    simp [optional_authenticate, h, Except.toOption]
  · intro a h
    simp [optional_authenticate, h, Except.toOption]

/-- Closed instance of mbC4 at the system-exception outcome. -/
theorem mbC4_witness :
    optional_authenticate c4db (some ("tok", some c4claims)) = .ok none :=
  (mbC4 c4db "tok" (some c4claims)).1 AppError.system_exception rfl

/-- C5: with likes enabled and no existing relation row for the triple, a
first ADD inserts the relation row and bumps like_count by one, and an
immediately repeated ADD fails with the duplicate-data error (the error
models the rolled-back transaction, so no state change accompanies it). -/
theorem mbC5 (st : LikeState) (uid memoId : Int) (fav : String) (now now2 : Int)
    (st1 : LikeState)
    (hnone : st.relations.filter (relMatches memoId uid fav) = [])
    (h1 : memo_relation true st uid memoId fav "ADD" now = .ok st1) :
    st1.relations = st.relations ++
      [{ id := 0, memo_id := memoId, user_id := uid, fav_type := fav,
         created := some now, updated := none }]
    ∧ (∀ m ∈ st.memos, ∀ c : Int, m.id = memoId → m.like_count = some c →
        { m with like_count := some (c + 1) } ∈ st1.memos)
    ∧ memo_relation true st1 uid memoId fav "ADD" now2 =
        .error (AppError.fail "数据已存在") := by
  have hcomp : memo_relation true st uid memoId fav "ADD" now = .ok
      { relations := st.relations ++
          [{ id := 0, memo_id := memoId, user_id := uid, fav_type := fav,
             created := some now, updated := none }],
        memos := st.memos.map (fun m =>
          if m.id == memoId then { m with like_count := m.like_count.map (· + 1) }
          else m) } := by
    simp [memo_relation, hnone]
  have hst : st1 = _ := Except.ok.inj (h1.symm.trans hcomp)
  subst hst
  refine ⟨rfl, ?_, ?_⟩
  · intro m hm c hid hc
    have heq :
        (if m.id == memoId then { m with like_count := m.like_count.map (· + 1) }
          else m) = { m with like_count := some (c + 1) } := by
      rw [if_pos (by simp [hid])]
      simp [hc]
    exact List.mem_map.mpr ⟨m, hm, heq⟩
  · have hrow : relMatches memoId uid fav
        { id := 0, memo_id := memoId, user_id := uid, fav_type := fav,
          created := some now, updated := none } = true := by
      simp [relMatches]
    simp [memo_relation, List.filter_append, hnone, hrow]

/-- Closed instance of mbC5: memo 1 with zero likes, user 430, LIKE type. -/
theorem mbC5_witness :
    c5after.relations = c5state.relations ++
      [{ id := 0, memo_id := 1, user_id := 430, fav_type := "LIKE",
         created := some 9, updated := none }]
    ∧ (∀ m ∈ c5state.memos, ∀ c : Int, m.id = 1 → m.like_count = some c →
        { m with like_count := some (c + 1) } ∈ c5after.memos)
    ∧ memo_relation true c5after 430 1 "LIKE" "ADD" 11 =
        .error (AppError.fail "数据已存在") :=
  mbC5 c5state 430 1 "LIKE" 9 11 c5after rfl rfl

/-- C7 (the code, run at the failing input): the content carries the token
at-alice-space and the user alice exists, yet parse_mentions stores no
names list and an empty-but-present ids list, because the regex text built
from the Rust raw string matches a literal backslash followed by the letter
s rather than whitespace. -/
theorem mbC7 :
    (∃ u ∈ c7users, u.display_name = some "alice")
    ∧ containsSub "@alice hello".toList "@alice ".toList = true
    ∧ parse_mentions c7users "@alice hello" = (none, some "") :=
  ⟨by decide, by decide, by decide⟩

/-- C9: a comment deletion succeeds only for an admin caller or the owner
of the memo the comment sits on, in which case exactly the comment row
disappears while the memo table (and with it the owning memo's
comment_count) and the user table stay untouched; any other caller gets the
permission failure. -/
theorem mbC9 (st : CommentStoreState) (authUid commentId : Int) :
    (∀ st', comment_remove st authUid commentId = .ok st' →
        st'.memos = st.memos ∧ st'.users = st.users
        ∧ st'.comments = st.comments.filter (fun x => !(x.id == commentId))
        ∧ ∃ u, st.users.find? (fun x => x.id == authUid) = some u
            ∧ ∃ c, st.comments.find? (fun x => x.id == commentId) = some c
            ∧ ∃ mm, st.memos.find? (fun x => x.id == c.memo_id) = some mm
            ∧ (u.role = some "ADMIN" ∨ mm.user_id = u.id))
    ∧ (∀ u c mm,
        st.users.find? (fun x => x.id == authUid) = some u →
        st.comments.find? (fun x => x.id == commentId) = some c →
        st.memos.find? (fun x => x.id == c.memo_id) = some mm →
        ¬ u.role = some "ADMIN" → ¬ mm.user_id = u.id →
        comment_remove st authUid commentId =
          .error (AppError.fail "只能删除自己发的memo的评论")) := by
  constructor
  · intro st' h
    cases hu : st.users.find? (fun x => x.id == authUid) with
    | none => simp [comment_remove, hu] at h
    | some u =>
      cases hc : st.comments.find? (fun x => x.id == commentId) with
      | none => simp [comment_remove, hu, hc] at h
      | some c =>
        cases hm : st.memos.find? (fun x => x.id == c.memo_id) with
        | none => simp [comment_remove, hu, hc, hm] at h
        | some mm =>
          by_cases hperm : (!(u.role == some "ADMIN") && !(mm.user_id == u.id)) = true
          · simp [comment_remove, hu, hc, hm, hperm] at h
          · have hok : comment_remove st authUid commentId = .ok
                { st with comments := st.comments.filter (fun x => !(x.id == commentId)) } := by
              simp only [comment_remove, hu, hc, hm]
              rw [if_neg hperm]
            have hst : st' = _ := (Except.ok.inj ((hok.symm.trans h))).symm
            subst hst
            refine ⟨rfl, rfl, rfl, u, rfl, c, rfl, mm, hm, ?_⟩
            by_cases hrole : u.role = some "ADMIN"
            · exact Or.inl hrole
            · right
              by_cases hid : mm.user_id = u.id
              · exact hid
              · exfalso
                apply hperm
                simp [hrole, hid]
  · intro u c mm hu hc hm hrole hid
    simp only [comment_remove, hu, hc, hm]
    rw [if_pos (by simp [hrole, hid])]

/-- Closed instance of mbC9: the admin (not the owner) deletes comment 5,
leaving the memo row with comment_count 4 untouched; the stranger is
refused. -/
theorem mbC9_witness :
    (({ users := [c9caller, c9stranger, c9owner], memos := [c9memo],
        comments := [] } : CommentStoreState).memos = c9state.memos
      ∧ ({ users := [c9caller, c9stranger, c9owner], memos := [c9memo],
           comments := [] } : CommentStoreState).users = c9state.users
      ∧ ({ users := [c9caller, c9stranger, c9owner], memos := [c9memo],
           comments := [] } : CommentStoreState).comments =
          c9state.comments.filter (fun x => !(x.id == (5 : Int)))
      ∧ ∃ u, c9state.users.find? (fun x => x.id == (1 : Int)) = some u
          ∧ ∃ c, c9state.comments.find? (fun x => x.id == (5 : Int)) = some c
          ∧ ∃ mm, c9state.memos.find? (fun x => x.id == c.memo_id) = some mm
          ∧ (u.role = some "ADMIN" ∨ mm.user_id = u.id))
    ∧ comment_remove c9state 3 5 =
        .error (AppError.fail "只能删除自己发的memo的评论") :=
  ⟨(mbC9 c9state 1 5).1 _ rfl,
   (mbC9 c9state 3 5).2 c9stranger c9comment c9memo (by decide) (by decide)
     (by decide) (by decide) (by decide)⟩

/-- C10: the two approval routes take no credential (the unused principal
argument mirrors a request with any or no authentication header), never
fail - in particular never with need-login or a permission error - and
unconditionally set approved to 1 on exactly the targeted anonymous-author
rows, leaving every other row as it was. -/
theorem mbC10 (cred cred' : Option AuthUser) (comments : List CommentRow)
    (targetId : Int) :
    single_approve cred comments targetId = single_approve cred' comments targetId
    ∧ memo_approve cred comments targetId = memo_approve cred' comments targetId
    ∧ (∀ e, ¬ single_approve cred comments targetId = .error e)
    ∧ (∀ e, ¬ memo_approve cred comments targetId = .error e)
    ∧ (∃ cs, single_approve cred comments targetId = .ok cs
        ∧ ∀ c ∈ comments,
            ((c.id = targetId ∧ c.user_id < 0) → { c with approved := some 1 } ∈ cs)
            ∧ (¬(c.id = targetId ∧ c.user_id < 0) → c ∈ cs))
    ∧ (∃ cs, memo_approve cred comments targetId = .ok cs
        ∧ ∀ c ∈ comments,
            ((c.memo_id = targetId ∧ c.user_id < 0) → { c with approved := some 1 } ∈ cs)
            ∧ (¬(c.memo_id = targetId ∧ c.user_id < 0) → c ∈ cs)) := by
  refine ⟨rfl, rfl, ?_, ?_, ?_, ?_⟩
  · intro e h
    simp [single_approve] at h
  · intro e h
    simp [memo_approve] at h
  · refine ⟨_, rfl, ?_⟩
    intro c hc
    constructor
    · intro hcase
      refine List.mem_map.mpr ⟨c, hc, ?_⟩
      rw [if_pos (by simp [hcase.1, hcase.2])]
    · intro hcase
      refine List.mem_map.mpr ⟨c, hc, ?_⟩
      rw [if_neg (by simpa [Bool.and_eq_true, beq_iff_eq, decide_eq_true_eq,
        not_and] using fun h1 h2 => hcase ⟨h1, h2⟩)]
  · refine ⟨_, rfl, ?_⟩
    intro c hc
    constructor
    · intro hcase
      refine List.mem_map.mpr ⟨c, hc, ?_⟩
      rw [if_pos (by simp [hcase.1, hcase.2])]
    · intro hcase
      refine List.mem_map.mpr ⟨c, hc, ?_⟩
      rw [if_neg (by simpa [Bool.and_eq_true, beq_iff_eq, decide_eq_true_eq,
        not_and] using fun h1 h2 => hcase ⟨h1, h2⟩)]

/-- Closed instance of mbC10: anonymous credential versus a logged-in
admin, the pending anonymous comment 5 targeted by id. -/
theorem mbC10_witness :
    single_approve none c10comments 5 =
      single_approve (some ⟨1, some "ADMIN", "WEB"⟩) c10comments 5
    ∧ memo_approve none c10comments 5 =
      memo_approve (some ⟨1, some "ADMIN", "WEB"⟩) c10comments 5
    ∧ (∀ e, ¬ single_approve none c10comments 5 = .error e)
    ∧ (∀ e, ¬ memo_approve none c10comments 5 = .error e)
    ∧ (∃ cs, single_approve none c10comments 5 = .ok cs
        ∧ ∀ c ∈ c10comments,
            ((c.id = 5 ∧ c.user_id < 0) → { c with approved := some 1 } ∈ cs)
            ∧ (¬(c.id = 5 ∧ c.user_id < 0) → c ∈ cs))
    ∧ (∃ cs, memo_approve none c10comments 5 = .ok cs
        ∧ ∀ c ∈ c10comments,
            ((c.memo_id = 5 ∧ c.user_id < 0) → { c with approved := some 1 } ∈ cs)
            ∧ (¬(c.memo_id = 5 ∧ c.user_id < 0) → c ∈ cs)) :=
  mbC10 none (some ⟨1, some "ADMIN", "WEB"⟩) c10comments 5

/-- C2 as stated fails: the name hash-a sits in both the old and the new
tag set, yet its count drops from 2 to 1, because the stored old tag string
hash-a-comma-hash-a-comma (produced by saving a memo whose first line
carries the token twice) yields the old list with the name twice, so the
single re-increment of sync-on-save is cancelled by two decrements. -/
theorem mbC2_cex :
    "#a" ∈ ["#a"] ∧ "#a" ∈ split_tags (some "#a,#a,")
    ∧ (tagRowsFor c2tags 7 "#a").map (fun t => t.memo_count) = [some 2]
    ∧ (tagRowsFor (sync_tags_on_update c2tags 7 ["#a"] (split_tags (some "#a,#a,")) 0)
        7 "#a").map (fun t => t.memo_count) = [some 1] :=
  ⟨by decide, by decide, by decide, by decide⟩

/-- C2 amended: on a memo update, a tag name present in both the new list
and the old list keeps its memo_count, provided the name occurs exactly
once in the old list, the caller has exactly one tag row of that name, and
that row's count is not negative (a NULL count equally survives): the
sync-on-save increment and the per-old-tag decrement cancel exactly. -/
theorem mbC2 (tags : List TagRow) (uid : Int) (newNames oldNames : List String)
    (name : String) (r : TagRow) (now : Int)
    (hnew : name ∈ newNames)
    (hold : oldNames.count name = 1)
    (huniq : tagRowsFor tags uid name = [r])
    (hc : ∀ c : Int, r.memo_count = some c → 0 ≤ c) :
    tagRowsFor (sync_tags_on_update tags uid newNames oldNames now) uid name = [r] := by
  have hnonempty : newNames.isEmpty = false := by
    cases newNames with
    | nil => cases hnew
    | cons a as => rfl
  have hrmem : r ∈ tags.filter (tagMatches uid name) := by
    rw [← tagRowsFor, huniq]; exact List.mem_singleton.mpr rfl
  have hrmatch : tagMatches uid name r = true := (List.mem_filter.mp hrmem).2
  have hrname : r.name = name := beq_iff_eq.mp ((Bool.and_eq_true _ _).mp hrmatch).2
  -- the existing-rows query restricted to this key is exactly [r]
  have hexist :
      (tags.filter (fun t => t.user_id == uid && newNames.contains t.name)).filter
        (tagMatches uid name) = [r] := by
    rw [List.filter_filter]
    rw [← huniq]
    unfold tagRowsFor
    apply List.filter_congr
    intro t ht
    cases hp : tagMatches uid name t with
    | false => simp
    | true =>
      have h1 : (t.user_id == uid) = true := ((Bool.and_eq_true _ _).mp hp).1
      have h2 : t.name = name := beq_iff_eq.mp ((Bool.and_eq_true _ _).mp hp).2
      have h3 : newNames.contains t.name = true := by
        rw [h2]; exact List.elem_iff.mpr hnew
      have h4 : t.name ∈ newNames := by rw [h2]; exact hnew
      simp [h1, h3, h4]
  have hrE : r ∈ tags.filter (fun t => t.user_id == uid && newNames.contains t.name) := by
    have := hexist ▸ List.mem_singleton.mpr rfl
    exact (List.mem_filter.mp this).1
  -- the fold of increments bumps this key exactly once
  have hcount :
      (tags.filter (fun t => t.user_id == uid && newNames.contains t.name)).countP
        (fun t => t.name == name) = 1 := by
    rw [List.countP_eq_length_filter]
    have hsame :
        (tags.filter (fun t => t.user_id == uid && newNames.contains t.name)).filter
          (fun t => t.name == name) =
        (tags.filter (fun t => t.user_id == uid && newNames.contains t.name)).filter
          (tagMatches uid name) := by
      apply List.filter_congr
      intro t ht
      have hq : (t.user_id == uid) = true :=
        ((Bool.and_eq_true _ _).mp (List.mem_filter.mp ht).2).1
      unfold tagMatches
      rw [hq, Bool.true_and]
    rw [hsame, hexist]
    rfl
  -- the inserted fresh rows never carry this key
  have hins :
      ((newNames.filter (fun n =>
          (tags.filter (fun t => t.user_id == uid && newNames.contains t.name)).all
            (fun t => !(t.name == n)))).map (fun n =>
        ({ id := 0, name := n, user_id := uid, created := some now, updated := some now,
           memo_count := some 1 } : TagRow))).filter (tagMatches uid name) = [] := by
    apply List.filter_eq_nil_iff.mpr
    intro row hrow
    obtain ⟨n, hn, rfl⟩ := List.mem_map.mp hrow
    intro hmatch
    have hnn : n = name := beq_iff_eq.mp ((Bool.and_eq_true _ _).mp hmatch).2
    have hall := (List.mem_filter.mp hn).2
    have := (List.all_eq_true.mp hall) r hrE
    rw [hrname, hnn] at this
    simp at this
  -- the state after sync_tags_on_save, restricted to this key
  have hsave : tagRowsFor (sync_tags_on_save tags uid newNames now) uid name =
      [bumpCount r] := by
    have hrw : sync_tags_on_save tags uid newNames now =
        (tags.filter (fun t => t.user_id == uid && newNames.contains t.name)).foldl
          (fun acc t => increment_tag_count acc uid t.name)
          (tags ++ (newNames.filter (fun n =>
              (tags.filter (fun t => t.user_id == uid && newNames.contains t.name)).all
                (fun t => !(t.name == n)))).map (fun n =>
            ({ id := 0, name := n, user_id := uid, created := some now, updated := some now,
               memo_count := some 1 } : TagRow))) := by
      unfold sync_tags_on_save
      rw [if_neg (by simp [hnonempty])]
    rw [hrw, tagRowsFor_fold_inc_one _ _ _ _ hcount]
    unfold tagRowsFor
    rw [List.filter_append]
    have h1 : tags.filter (tagMatches uid name) = [r] := huniq
    rw [h1, hins]
    simp
  unfold sync_tags_on_update
  rw [tagRowsFor_fold_dec_one _ _ _ _ hold, hsave]
  simp only [List.map_cons, List.map_nil]
  obtain ⟨rid, rname, ruid, rcr, rup, rmc⟩ := r
  cases rmc with
  | none => simp [bumpCount, decGuard, dropCount]
  | some cval =>
    have hge : (0 : Int) ≤ cval := hc cval rfl
    have hguard : decGuard (bumpCount ⟨rid, rname, ruid, rcr, rup, some cval⟩) = true := by
      show decide ((1 : Int) ≤ cval + 1) = true
      exact decide_eq_true (by omega)
    rw [if_pos hguard]
    have hdb : dropCount (bumpCount ⟨rid, rname, ruid, rcr, rup, some cval⟩) =
        ⟨rid, rname, ruid, rcr, rup, some (cval + 1 - 1)⟩ := rfl
    rw [hdb]
    have h2 : cval + 1 - 1 = cval := by omega
    rw [h2]

/-- Closed instance of mbC2: one hash-a row of user 7 at count 2, the name
once in the old list and once in the new list. -/
theorem mbC2_witness :
    tagRowsFor (sync_tags_on_update c2tags 7 ["#a"] ["#a"] 0) 7 "#a" = [c2row] :=
  mbC2 c2tags 7 ["#a"] ["#a"] "#a" c2row 0 (by decide) (by decide) (by decide)
    (fun c h => by
      have : (2 : Int) = c := Option.some.inj (by simpa [c2row, baseTag] using h)
      omega)

/-- A fold that never fires on its accumulator leaves it unchanged. -/
theorem foldl_step_skip (step : MemoRow → MemoRow → MemoRow) :
    ∀ (rows : List MemoRow) (x : MemoRow),
      (∀ row ∈ rows, step x row = x) → rows.foldl step x = x := by
  intro rows
  induction rows with
  | nil => intro x _; rfl
  | cons r rest ih =>
    intro x h
    rw [List.foldl_cons, h r (List.mem_cons_self r rest)]
    exact ih x (fun row hrow => h row (List.mem_cons_of_mem r hrow))

/-- A fold that fires exactly at the marked position produces that single
update. -/
theorem foldl_step_hit (step : MemoRow → MemoRow → MemoRow)
    (l1 l2 : List MemoRow) (m v : MemoRow)
    (h1 : ∀ row ∈ l1, step m row = m)
    (hhit : step m m = v)
    (h2 : ∀ row ∈ l2, step v row = v) :
    (l1 ++ m :: l2).foldl step m = v := by
  rw [List.foldl_append, foldl_step_skip step l1 m h1, List.foldl_cons, hhit]
  exact foldl_step_skip step l2 v h2

/-- A fold of per-row map updates is the map of the per-element fold. -/
theorem foldl_map_comm {α β : Type} (u : α → β → β) :
    ∀ (rows : List α) (l : List β),
      rows.foldl (fun acc row => acc.map (u row)) l =
        l.map (fun m => rows.foldl (fun x row => u row x) m) := by
  intro rows
  induction rows with
  | nil => intro l; simp
  | cons r rest ih =>
    intro l
    rw [List.foldl_cons, ih (l.map (u r)), List.map_map]
    rfl

/-- C6 as stated fails: renaming hash-rust to hash-r2 leaves untouched a
memo whose tag string contains hash-rust-comma in the middle, because the
LIKE pattern of the rename has no trailing percent wildcard and so only
matches tag strings that end with the old token. -/
theorem mbC6_cex :
    (∃ st', tag_save c6state [(1, "#r2")] 99 = .ok st' ∧ st'.memos = c6state.memos)
    ∧ optContains ((c6state.memos.headD baseMemo).tags) "#rust," = true :=
  ⟨⟨_, rfl, rfl⟩, by decide⟩

/-- C6 amended: a rename rewrites exactly the memos whose tag string ends
with the old name followed by a comma - there the first occurrence of the
old token becomes the new token and the updated timestamp is bumped, within
the same transaction that renames the tag row - and leaves every other memo
unchanged (memo primary keys are assumed distinct, as the store guarantees). -/
theorem mbC6 (st : TagStoreState) (itemId : Int) (itemName : String) (now : Int)
    (old : TagRow) (st' : TagStoreState)
    (hnodup : (st.memos.map (fun m => m.id)).Nodup)
    (hfind : st.tags.find? (fun t => t.id == itemId) = some old)
    (hok : tag_save_item st itemId itemName now = .ok st') :
    st'.tags = st.tags.map (fun t =>
      if t.id == itemId then { t with name := itemName } else t)
    ∧ st'.memos = st.memos.map (fun m =>
        if optEndsWith m.tags (old.name ++ ",") then
          { m with
            tags := some ((replaceFirstL (old.name ++ ",").toList
              (itemName ++ ",").toList (m.tags.getD "").toList).asString),
            updated := some now }
        else m) := by
  have hcomp : tag_save_item st itemId itemName now = .ok
      { tags := st.tags.map (fun t =>
          if t.id == itemId then { t with name := itemName } else t),
        memos := (st.memos.filter (fun m => optEndsWith m.tags (old.name ++ ","))).foldl
          (fun acc row => acc.map (fun m =>
            if m.id == row.id then
              { m with
                tags := some ((replaceFirstL (old.name ++ ",").toList
                  (itemName ++ ",").toList (row.tags.getD "").toList).asString),
                updated := some now }
            else m))
          st.memos } := by
    unfold tag_save_item
    rw [hfind]
  have hst : st' = _ := Except.ok.inj (hok.symm.trans hcomp)
  subst hst
  refine ⟨rfl, ?_⟩
  rw [foldl_map_comm]
  apply List.map_congr_left
  intro m hm
  cases hcond : optEndsWith m.tags (old.name ++ ",") with
  | false =>
    rw [if_neg (by simp [hcond])]
    apply foldl_step_skip
    intro row hrow
    have hrowmem := List.mem_filter.mp hrow
    have hne : ¬ (m.id == row.id) = true := by
      intro hbeq
      have : row = m := by
        have hinj := List.inj_on_of_nodup_map hnodup
        exact hinj hrowmem.1 hm (beq_iff_eq.mp hbeq).symm
      rw [this] at hrowmem
      rw [hcond] at hrowmem
      exact Bool.false_ne_true hrowmem.2
    rw [if_neg hne]
  | true =>
    rw [if_pos (by simp [hcond])]
    have hmem : m ∈ st.memos.filter (fun m => optEndsWith m.tags (old.name ++ ",")) :=
      List.mem_filter.mpr ⟨hm, by simp [hcond]⟩
    obtain ⟨l1, l2, hsplit⟩ := List.append_of_mem hmem
    have hsub : (st.memos.filter (fun m => optEndsWith m.tags (old.name ++ ","))).Sublist
        st.memos := List.filter_sublist _
    have hnodupM : ((l1 ++ m :: l2).map (fun m => m.id)).Nodup := by
      rw [← hsplit]
      exact List.Nodup.sublist (hsub.map (fun m => m.id)) hnodup
    rw [List.map_append, List.map_cons] at hnodupM
    have hnotin := (List.nodup_append.mp hnodupM).2.2
    have hnodupR := (List.nodup_append.mp hnodupM).2.1
    have hnotl2 : m.id ∉ l2.map (fun m => m.id) := (List.nodup_cons.mp hnodupR).1
    rw [hsplit]
    apply foldl_step_hit
    · intro row hrow
      have hne : ¬ (m.id == row.id) = true := by
        intro hbeq
        have h1m : m.id ∈ l1.map (fun m => m.id) := by
          rw [beq_iff_eq.mp hbeq]
          exact List.mem_map_of_mem (fun m => m.id) hrow
        exact hnotin h1m (List.mem_cons_self _ _)
      rw [if_neg hne]
    · rw [if_pos (by simp)]
    · intro row hrow
      have hne : ¬ (m.id == row.id) = true := by
        intro hbeq
        exact hnotl2 ((beq_iff_eq.mp hbeq) ▸ List.mem_map_of_mem (fun m => m.id) hrow)
      rw [if_neg hne]

/-- Closed instance of mbC6: renaming hash-rust to hash-r2 over a memo
whose tag string ends with the old token. -/
theorem mbC6_witness :
    c6afterEnd.tags = c6stateEnd.tags.map (fun t =>
      if t.id == (1 : Int) then { t with name := "#r2" } else t)
    ∧ c6afterEnd.memos = c6stateEnd.memos.map (fun m =>
        if optEndsWith m.tags (c6old.name ++ ",") then
          { m with
            tags := some ((replaceFirstL (c6old.name ++ ",").toList
              ("#r2" ++ ",").toList (m.tags.getD "").toList).asString),
            updated := some 99 }
        else m) :=
  mbC6 c6stateEnd 1 "#r2" 99 c6old c6afterEnd (by decide) (by decide) (by rfl)

/-- C1: whatever the filter combination, every memo row in the returned
page has status NORMAL; an anonymous viewer only ever receives PUBLIC
memos, and an authenticated viewer only PUBLIC or PROTECT memos or their
own PRIVATE memos - never another user's PRIVATE memo. -/
theorem mbC1 (db : ListDb) (req : ListMemoRequest) (viewer : Option Int) (m : MemoRow)
    (hm : m ∈ listPageMemos db req viewer) :
    m.status = some "NORMAL"
    ∧ (viewer = none → m.visibility = some "PUBLIC")
    ∧ (∀ uid : Int, viewer = some uid →
        m.visibility = some "PUBLIC" ∨ m.visibility = some "PROTECT"
        ∨ (m.visibility = some "PRIVATE" ∧ m.user_id = uid)) := by
  have h1 : m ∈ sortByLe
      (listLe (!(req.liked.getD false) && !(req.commented.getD false) &&
        !(req.mentioned.getD false)))
      (innerRows db req viewer) := by
    unfold listPageMemos at hm
    exact List.drop_subset _ _ (List.take_subset _ _ hm)
  have h2 : m ∈ innerRows db req viewer := (mem_sortByLe _ _ _).mp h1
  unfold innerRows at h2
  obtain ⟨x, hxf, hxm⟩ := List.mem_map.mp h2
  have hw : listWhere req viewer x.1 x.2.1 x.2.2 = true := (List.mem_filter.mp hxf).2
  rw [hxm] at hw
  simp only [listWhere, Bool.and_eq_true] at hw
  obtain ⟨⟨⟨⟨⟨hstat, hsearch⟩, hdate⟩, hview⟩, htag⟩, hvis⟩ := hw
  refine ⟨?_, ?_, ?_⟩
  · unfold statusCond at hstat
    exact beq_iff_eq.mp hstat
  · intro hv
    rw [hv] at hview
    simp only [viewerCond, Bool.and_eq_true] at hview
    exact beq_iff_eq.mp hview.1
  · intro uid hv
    rw [hv] at hview
    simp only [viewerCond, Bool.and_eq_true] at hview
    have hvl : visLoginCond uid m = true := hview.1.1.1
    unfold visLoginCond at hvl
    simp only [Bool.or_eq_true, Bool.and_eq_true, beq_iff_eq] at hvl
    rcases hvl with (h | h) | h
    · exact Or.inl h
    · exact Or.inr (Or.inl h)
    · exact Or.inr (Or.inr h)

/-- Closed instance of mbC1: the anonymous listing of a store holding one
public NORMAL memo returns it, and the theorem's guarantees hold of it. -/
theorem mbC1_witness :
    c1memo.status = some "NORMAL"
    ∧ ((none : Option Int) = none → c1memo.visibility = some "PUBLIC")
    ∧ (∀ uid : Int, (none : Option Int) = some uid →
        c1memo.visibility = some "PUBLIC" ∨ c1memo.visibility = some "PROTECT"
        ∨ (c1memo.visibility = some "PRIVATE" ∧ c1memo.user_id = uid)) :=
  mbC1 c1db emptyListRequest none c1memo (by decide)

end MBlog
